import Mathlib

set_option maxHeartbeats 1000000

/-
Verification of the multiplayer state-reconciliation core of cozy-quest-hd.

The embedding below translates, from the TypeScript source:
  - the shared data model (src/src/types/index.ts, src/unnamed/part_000):
    PlayerAction, PlayerState;
  - the Presence Synchronizer (src/src/managers/NetworkManager.ts):
    the players map, handlePlayerJoin, the onQuit handler, onPlayerJoin
    registration with replay, setLocalState, getPlayerState,
    getAllPlayerStates, init, isConnected, broadcastAction;
  - the Reconciliation Loop and render actor
    (CampfireScene.updateRemotePlayers and spawnRemotePlayer in
    src/unnamed/part_001, Character in src/unnamed/part_002).

Modelling conventions, stated once:
  - JavaScript Map is an association list with unique keys; Map.set keeps
    the insertion position of an existing key and appends a new one,
    Map.delete removes the binding.
  - Date.now() is an explicit argument (now : Nat) to each operation that
    reads the clock in the source.
  - Coordinates are Int.  The source compares Euclidean distances against
    the constants 5 and 1; since sqrt is monotone, the embedding compares
    the squared distance against 25 and 1.  On integers, squared distance
    below 1 is exactly equality of the two points.
  - A Playroom player handle (PlayroomPlayerState) is the record of its
    per-player state fields: the profile name and the three named state
    fields pos / action / actionTime written by setState and read by
    getState; a field never written is none.  The players map stores these
    live records; myPlayer() is the handle of the localId entry.
  - Callbacks registered with onPlayerJoin are invoked identically in a
    loop over joinCallbacks, so one distinguished handler is tracked: the
    flag registered says it has been pushed, and invocations is the ordered
    trace of the (playerId, state) calls it has received.  Likewise
    leaveRegistered / leaveInvocations for onPlayerLeave, and broadcasts
    for RPC calls sent by broadcastAction.
  - Operations that only fail soft in the source (the try/catch around
    insertCoin, the early return of setLocalState) are total functions; the
    absence of a thrown exception is the fact that the Lean function is
    total and returns the degraded state.
-/

namespace CozyQuest

/-- The closed activity enumeration of src/src/types/index.ts. -/
inductive PlayerAction where
  | idle
  | walking
  | waving
  deriving DecidableEq, Repr

/-- PlayerState of src/src/types/index.ts: the normalized view handed to
join callbacks and returned by getPlayerState. -/
structure PlayerState where
  id : String
  username : String
  x : Int
  y : Int
  action : PlayerAction
  actionTime : Nat
  deriving DecidableEq, Repr

/-- A Playroom player handle: profile plus the named state fields the code
writes with setState and reads with getState. -/
structure PlayroomPlayer where
  id : String
  profileName : Option String
  pos : Option (Int × Int)
  action : Option PlayerAction
  actionTime : Option Nat
  deriving DecidableEq, Repr

/-- The partial update accepted by setLocalState: Partial of PlayerState,
restricted to the fields the function reads (x, y, action). -/
structure StatePatch where
  x : Option Int
  y : Option Int
  action : Option PlayerAction
  deriving DecidableEq, Repr

/-- Association-list lookup, the read of a JavaScript Map.get. -/
def mapLookup {α : Type} : List (String × α) → String → Option α
  | [], _ => none
  | kv :: rest, k => if kv.1 = k then some kv.2 else mapLookup rest k

/-- JavaScript Map.has. -/
def mapHas {α : Type} (l : List (String × α)) (k : String) : Bool :=
  l.any (fun kv => kv.1 = k)

/-- JavaScript Map.set: replace in place when the key is present, append
otherwise. -/
def mapSet {α : Type} (l : List (String × α)) (k : String) (v : α) :
    List (String × α) :=
  if mapHas l k then l.map (fun kv => if kv.1 = k then (k, v) else kv)
  else l ++ [(k, v)]

/-- JavaScript Map.delete. -/
def mapErase {α : Type} (l : List (String × α)) (k : String) :
    List (String × α) :=
  l.filter (fun kv => kv.1 ≠ k)

/-- The NetworkManager instance together with the Playroom session globals
it reads (myPlayer, the per-player state store). -/
structure NetworkManager where
  initialized : Bool
  localId : Option String
  players : List (String × PlayroomPlayer)
  registered : Bool
  invocations : List (String × PlayerState)
  leaveRegistered : Bool
  leaveInvocations : List String
  actionRegistered : Bool
  broadcasts : List PlayerAction
  deriving DecidableEq, Repr

/-- The freshly constructed singleton, before init. -/
def freshNM : NetworkManager :=
  { initialized := false, localId := none, players := [], registered := false,
    invocations := [], leaveRegistered := false, leaveInvocations := [],
    actionRegistered := false, broadcasts := [] }

/-- NetworkManager.init (NetworkManager.ts lines 59-105).  connectOk is the
outcome of the awaited insertCoin call; assignedId the id the service gives
the local participant.  The catch branch logs and returns, so a failed
connect leaves the manager in its fresh state. -/
def init (nm : NetworkManager) (connectOk : Bool) (assignedId : String) :
    NetworkManager :=
  if nm.initialized then nm
  else if connectOk then
    { nm with initialized := true, localId := some assignedId }
  else nm

/-- NetworkManager.getPlayerState (lines 185-202): absent for an unknown
id; otherwise the mirror with defaults derived for unpublished fields
(zero position, idle action, Date.now() for actionTime). -/
def getPlayerState (nm : NetworkManager) (playerId : String) (now : Nat) :
    Option PlayerState :=
  match mapLookup nm.players playerId with
  | none => none
  | some p =>
      some { id := playerId
           , username := p.profileName.getD ("Player" ++ playerId.take 4)
           , x := (p.pos.map Prod.fst).getD 0
           , y := (p.pos.map Prod.snd).getD 0
           , action := p.action.getD PlayerAction.idle
           , actionTime := p.actionTime.getD now }

/-- NetworkManager.getAllPlayerStates (lines 207-214). -/
def getAllPlayerStates (nm : NetworkManager) (now : Nat) : List PlayerState :=
  (nm.players.map Prod.fst).filterMap (fun pid => getPlayerState nm pid now)

/-- NetworkManager.handlePlayerJoin (lines 110-138): insert the handle into
the players map, compute the state handed to join callbacks (getPlayerState
with a default for the impossible absent case), and invoke the registered
callbacks. -/
def handlePlayerJoin (nm : NetworkManager) (p : PlayroomPlayer) (now : Nat) :
    NetworkManager :=
  let nm1 := { nm with players := mapSet nm.players p.id p }
  let st := (getPlayerState nm1 p.id now).getD
    { id := p.id
    , username := p.profileName.getD ("Player" ++ p.id.take 4)
    , x := 0, y := 0, action := PlayerAction.idle, actionTime := now }
  if nm1.registered then
    { nm1 with invocations := nm1.invocations ++ [(p.id, st)] }
  else nm1

/-- The onQuit closure installed by handlePlayerJoin (lines 131-137):
delete the entry and fire the leave callbacks. -/
def handleQuit (nm : NetworkManager) (playerId : String) : NetworkManager :=
  { nm with
    players := mapErase nm.players playerId,
    leaveInvocations :=
      if nm.leaveRegistered then nm.leaveInvocations ++ [playerId]
      else nm.leaveInvocations }

/-- NetworkManager.onPlayerJoin (lines 144-156): push the callback, then
replay every currently known player to it. -/
def registerJoinCallback (nm : NetworkManager) (now : Nat) : NetworkManager :=
  { nm with
    registered := true,
    invocations := nm.invocations ++
      (nm.players.map Prod.fst).filterMap
        (fun pid => (getPlayerState nm pid now).map (fun s => (pid, s))) }

/-- The field writes performed by setLocalState on the myPlayer() handle:
pos when both x and y are present, then action plus a fresh actionTime when
an action is present. -/
def setLocalStateUpd (st : StatePatch) (now : Nat) (p : PlayroomPlayer) :
    PlayroomPlayer :=
  let p1 := if st.x.isSome && st.y.isSome
    then { p with pos := some (st.x.getD 0, st.y.getD 0) } else p
  if st.action.isSome then { p1 with action := st.action, actionTime := some now }
  else p1

/-- NetworkManager.setLocalState (lines 169-180): a no-op when myPlayer()
is null, otherwise writes through the local handle only. -/
def setLocalState (nm : NetworkManager) (st : StatePatch) (now : Nat) :
    NetworkManager :=
  match nm.localId with
  | none => nm
  | some lid =>
      { nm with
        players := nm.players.map
          (fun kv => if kv.1 = lid then (kv.1, setLocalStateUpd st now kv.2) else kv) }

/-- NetworkManager.isConnected (lines 241-243). -/
def isConnected (nm : NetworkManager) : Bool :=
  nm.initialized

/-- NetworkManager.getLocalPlayerId (lines 219-221). -/
def getLocalPlayerId (nm : NetworkManager) : Option String :=
  nm.localId

/-- NetworkManager.getLocalPlayerName (lines 227-229): the profile name of
the myPlayer() handle. -/
def getLocalPlayerName (nm : NetworkManager) : Option String :=
  nm.localId.bind (fun lid => (mapLookup nm.players lid).bind PlayroomPlayer.profileName)

/-- NetworkManager.broadcastAction (lines 249-252): guarded RPC send. -/
def broadcastAction (nm : NetworkManager) (a : PlayerAction) : NetworkManager :=
  if nm.initialized then { nm with broadcasts := nm.broadcasts ++ [a] } else nm

/-- The operations the NetworkManager exposes to the rest of the
application (its public methods).  hostAnswer is the reply of the external
isHost() global, which the manager only forwards. -/
inductive ExposedOp where
  | setLocal (st : StatePatch) (now : Nat)
  | getPlayer (pid : String) (now : Nat)
  | getAll (now : Nat)
  | onJoin (now : Nat)
  | onLeave
  | getLocalId
  | getLocalName
  | hostQuery (hostAnswer : Bool)
  | connectedQuery
  | broadcast (a : PlayerAction)
  | onRemote
  deriving Repr

/-- The value an exposed operation returns. -/
inductive OpResult where
  | unit
  | onePlayer (s : Option PlayerState)
  | allPlayers (l : List PlayerState)
  | optStr (s : Option String)
  | flag (b : Bool)
  deriving DecidableEq, Repr

/-- Run one exposed operation: the next manager state and the returned
value, each computed by the corresponding source method. -/
def runOp (nm : NetworkManager) (op : ExposedOp) : NetworkManager × OpResult :=
  match op with
  | ExposedOp.setLocal st now => (setLocalState nm st now, OpResult.unit)
  | ExposedOp.getPlayer pid now => (nm, OpResult.onePlayer (getPlayerState nm pid now))
  | ExposedOp.getAll now => (nm, OpResult.allPlayers (getAllPlayerStates nm now))
  | ExposedOp.onJoin now => (registerJoinCallback nm now, OpResult.unit)
  | ExposedOp.onLeave => ({ nm with leaveRegistered := true }, OpResult.unit)
  | ExposedOp.getLocalId => (nm, OpResult.optStr (getLocalPlayerId nm))
  | ExposedOp.getLocalName => (nm, OpResult.optStr (getLocalPlayerName nm))
  | ExposedOp.hostQuery b => (nm, OpResult.flag b)
  | ExposedOp.connectedQuery => (nm, OpResult.flag (isConnected nm))
  | ExposedOp.broadcast a => (broadcastAction nm a, OpResult.unit)
  | ExposedOp.onRemote => ({ nm with actionRegistered := true }, OpResult.unit)

/-- Squared Euclidean distance.  The source compares
Phaser.Math.Distance.Between(x1,y1,x2,y2) against 5 (updateRemotePlayers)
and 1 (walkTo); by monotonicity of sqrt these are the comparisons of
distSq against 25 and 1. -/
def distSq (x1 y1 x2 y2 : Int) : Int :=
  (x2 - x1) * (x2 - x1) + (y2 - y1) * (y2 - y1)

/-- The render actor (Character, src/unnamed/part_002): position, the
rendered action, the in-flight movement tween of walkTo (its target, none
when no tween is active), and the sprite flip.  A tween that has been
stopped is always also nulled in the source (walkTo, stop, onComplete), so
moveTween.isSome is exactly isMoving(). -/
structure Character where
  pid : String
  playerName : String
  x : Int
  y : Int
  currentAction : PlayerAction
  moveTween : Option (Int × Int)
  flipX : Bool
  deriving DecidableEq, Repr

/-- The Character constructor: placed at (x, y), idle (the constructor
calls playIdle), no tween. -/
def mkCharacter (x y : Int) (pid playerName : String) : Character :=
  { pid := pid, playerName := playerName, x := x, y := y,
    currentAction := PlayerAction.idle, moveTween := none, flipX := false }

/-- Character.isMoving (part_002 lines 370-372). -/
def isMovingChar (c : Character) : Bool :=
  c.moveTween.isSome

/-- Character.getAction. -/
def getActionChar (c : Character) : PlayerAction :=
  c.currentAction

/-- Character.playIdle: sets the rendered action back to idle (the
animation side is render-only). -/
def playIdleChar (c : Character) : Character :=
  { c with currentAction := PlayerAction.idle }

/-- Character.playWave (part_002 lines 299-331): sets the rendered action
to waving; it stops sprite tweens but not the movement tween, which
targets the container. -/
def playWaveChar (c : Character) : Character :=
  { c with currentAction := PlayerAction.waving }

/-- Character.walkTo (part_002 lines 213-261): stop any existing tween,
resolve immediately when the distance is below 1, otherwise flip toward
the target, enter walking and start a tween toward (tx, ty). -/
def walkToChar (c : Character) (tx ty : Int) : Character :=
  let c0 := { c with moveTween := none }
  if distSq c0.x c0.y tx ty < 1 then c0
  else
    let c1 :=
      if tx < c0.x then { c0 with flipX := true }
      else if tx > c0.x then { c0 with flipX := false }
      else c0
    { c1 with currentAction := PlayerAction.walking, moveTween := some (tx, ty) }

/-- What may happen to an actor between two reconciliation ticks: its
movement tween may reach its target (onComplete: null the tween, playIdle)
and its wave animation may complete (animationcomplete: playIdle).  Both
completions are asynchronous in the source; a tick function cannot decide
them, so they are environment inputs. -/
structure TickEnv where
  waveDone : Bool
  moveDone : Bool
  deriving DecidableEq, Repr

/-- The onComplete callback of the movement tween (walkTo): the actor
reaches the target, the tween is nulled, playIdle runs. -/
def moveComplete (c : Character) : Character :=
  match c.moveTween with
  | some t => playIdleChar { c with x := t.1, y := t.2, moveTween := none }
  | none => c

/-- The animationcomplete callback of playWave: playIdle, relevant only
while the actor is rendering the wave. -/
def waveComplete (c : Character) (done : Bool) : Character :=
  if done && decide (c.currentAction = PlayerAction.waving)
  then playIdleChar c else c

/-- Deliver the completion callbacks chosen by the environment. -/
def applyEnv (c : Character) (e : TickEnv) : Character :=
  waveComplete (if e.moveDone then moveComplete c else c) e.waveDone

/-- The action block of the per-character body of
CampfireScene.updateRemotePlayers (part_001 lines 620-647), run on the
outcome of the movement block: independently of movement, trigger
playWave when the report says waving and the rendered action is not
waving.  Returns the actor plus (wave triggered, walk initiated). -/
def actionCheck (mv : Character × Bool) (s : PlayerState) : Character × Bool × Bool :=
  if s.action = PlayerAction.waving && decide (getActionChar mv.1 ≠ PlayerAction.waving)
  then (playWaveChar mv.1, true, mv.2)
  else (mv.1, false, mv.2)

/-- The per-character body of updateRemotePlayers applied to one reported
state: the movement block (skip while the actor is moving, otherwise walk
when the reported position is further than the threshold) followed by the
action block. -/
def updateRemoteTick (c : Character) (s : PlayerState) : Character × Bool × Bool :=
  actionCheck
    (if isMovingChar c then (c, false)
     else if distSq c.x c.y s.x s.y > 25 then (walkToChar c s.x s.y, true)
     else (c, false)) s

/-- Iterate the reconciliation tick over a sequence of (environment,
reported state) pairs, counting wave triggers and walk initiations. -/
def runTicks (c : Character) : List (TickEnv × PlayerState) → Character × Nat × Nat
  | [] => (c, 0, 0)
  | (e, s) :: rest =>
      let r := updateRemoteTick (applyEnv c e) s
      let tail := runTicks r.1 rest
      (tail.1, (if r.2.1 then 1 else 0) + tail.2.1, (if r.2.2 then 1 else 0) + tail.2.2)

/-- CampfireScene.spawnRemotePlayer (part_001 lines 508-522): no duplicate
actor for a known id; a falsy (zero) reported coordinate is replaced by
the default spawn point, right of the fire (width / 2 + 80 with width
1280) and at ground level (height - GROUND_HEIGHT with height 720 and
GROUND_HEIGHT 180). -/
def spawnRemotePlayer (remotePlayers : List (String × Character))
    (playerId : String) (state : PlayerState) : List (String × Character) :=
  if mapHas remotePlayers playerId then remotePlayers
  else
    let groundY : Int := 720 - 180
    let x : Int := if state.x = 0 then 1280 / 2 + 80 else state.x
    let y : Int := if state.y = 0 then groundY else state.y
    remotePlayers ++ [(playerId, mkCharacter x y playerId state.username)]

/-- CampfireScene.removeRemotePlayer (part_001 lines 527-534). -/
def removeRemotePlayer (remotePlayers : List (String × Character))
    (playerId : String) : List (String × Character) :=
  mapErase remotePlayers playerId

/- Concrete sample values for the counterexamples and witnesses below. -/

/-- A remote actor standing at the origin, idle, no tween. -/
def originChar : Character := mkCharacter 0 0 "p" "P"

/-- A report placing participant p at the origin, idle. -/
def repIdle : PlayerState :=
  { id := "p", username := "P", x := 0, y := 0,
    action := PlayerAction.idle, actionTime := 0 }

/-- The same report with activity waving. -/
def repWave : PlayerState := { repIdle with action := PlayerAction.waving }

/-- The inter-tick environment in which nothing completes: what per-frame
ticks see, the wave animation lasting about two seconds. -/
def quietEnv : TickEnv := { waveDone := false, moveDone := false }

/-- The five-tick report sequence of the edge-trigger claim, idle, waving,
waving, idle, waving, with a chosen environment before each tick. -/
def waveSeq (e1 e2 e3 e4 e5 : TickEnv) : List (TickEnv × PlayerState) :=
  [(e1, repIdle), (e2, repWave), (e3, repWave), (e4, repIdle), (e5, repWave)]

/-- An actor mid-movement-transition toward (100, 0). -/
def movingChar : Character :=
  { pid := "p", playerName := "P", x := 0, y := 0,
    currentAction := PlayerAction.walking, moveTween := some (100, 0),
    flipX := false }

/-- A report with activity waving at the position the actor walks to. -/
def repWaveFar : PlayerState :=
  { id := "p", username := "P", x := 100, y := 0,
    action := PlayerAction.waving, actionTime := 0 }

/-- A participant that has only ever published a position, never an
activity: pos set, action and actionTime never written. -/
def bobPlayer : PlayroomPlayer :=
  { id := "bob", profileName := some "Bob", pos := some (3, 4),
    action := none, actionTime := none }

/-- A connected manager knowing only that participant. -/
def posOnlyNM : NetworkManager :=
  { freshNM with
    initialized := true, localId := some "me",
    players := [("bob", bobPlayer)] }

/-- The local participant handle with every field published. -/
def mePlayer : PlayroomPlayer :=
  { id := "me", profileName := some "Me", pos := some (0, 0),
    action := some PlayerAction.idle, actionTime := some 5 }

/-- A connected manager whose local participant is present. -/
def localNM : NetworkManager :=
  { freshNM with
    initialized := true, localId := some "me",
    players := [("me", mePlayer)] }

/-- A partial update carrying x, y and an action at once, as the self-join
sync in CampfireScene.setupMultiplayer sends. -/
def fullPatch : StatePatch :=
  { x := some 1, y := some 2, action := some PlayerAction.waving }

/-- Two participant handles with distinct ids, the first the local one. -/
def joinMe : PlayroomPlayer :=
  { id := "me", profileName := some "A", pos := none, action := none,
    actionTime := none }

/-- The second, remote, participant handle. -/
def joinB : PlayroomPlayer :=
  { id := "b", profileName := some "B", pos := some (7, 8), action := none,
    actionTime := none }

/-- A third handle, joining only after the late registration. -/
def joinC : PlayroomPlayer :=
  { id := "c", profileName := some "C", pos := none, action := none,
    actionTime := none }

/-- The manager state right after a successful connect, before any join is
delivered. -/
def connectedNM (lid : String) : NetworkManager :=
  init freshNM true lid

/-- The join phase of the replay scenario: a sequence of join events
delivered before the application registers its callback. -/
def joinPhase (joins : List PlayroomPlayer) (lid : String) (now : Nat) :
    NetworkManager :=
  joins.foldl (fun m p => handlePlayerJoin m p now) (connectedNM lid)

/- Lemmas about the association-list embedding of JavaScript Map. -/

theorem mapLookup_eq_none_of_not_mem {α : Type} (l : List (String × α))
    (k : String) (h : k ∉ l.map Prod.fst) : mapLookup l k = none := by
  induction l with
  | nil => rfl
  | cons kv rest ih =>
      simp only [List.map_cons, List.mem_cons, not_or] at h
      have hk : ¬ kv.1 = k := fun hk => h.1 hk.symm
      simp only [mapLookup, if_neg hk]
      exact ih h.2

theorem mapLookup_isSome_of_mem {α : Type} (l : List (String × α))
    (k : String) (h : k ∈ l.map Prod.fst) : (mapLookup l k).isSome = true := by
  induction l with
  | nil => simp at h
  | cons kv rest ih =>
      by_cases hk : kv.1 = k
      · simp [mapLookup, hk]
      · simp only [List.map_cons, List.mem_cons] at h
        rcases h with h | h
        · exact absurd h.symm hk
        · simp only [mapLookup, if_neg hk]
          exact ih h

theorem mapLookup_erase_self {α : Type} (l : List (String × α)) (k : String) :
    mapLookup (mapErase l k) k = none := by
  induction l with
  | nil => rfl
  | cons kv rest ih =>
      by_cases hk : kv.1 = k
      · simpa [mapErase, hk] using ih
      · simpa [mapErase, List.filter_cons, hk, mapLookup] using ih

theorem mem_keys_mapErase_ne {α : Type} (l : List (String × α)) (k pid : String)
    (h : pid ∈ (mapErase l k).map Prod.fst) : pid ≠ k := by
  rcases List.mem_map.mp h with ⟨kv, hkv, hfst⟩
  rcases List.mem_filter.mp hkv with ⟨_, hkeep⟩
  intro he
  rw [hfst.symm] at he
  simp [he] at hkeep

theorem mapHas_false_of_not_mem {α : Type} (l : List (String × α)) (k : String)
    (h : k ∉ l.map Prod.fst) : mapHas l k = false := by
  induction l with
  | nil => rfl
  | cons kv rest ih =>
      simp only [List.map_cons, List.mem_cons, not_or] at h
      simp only [mapHas, List.any_cons, Bool.or_eq_false_iff]
      exact ⟨by simpa using fun hk => h.1 hk.symm,
             by simpa [mapHas] using ih h.2⟩

theorem mapSet_append_of_not_mem {α : Type} (l : List (String × α)) (k : String)
    (v : α) (h : k ∉ l.map Prod.fst) : mapSet l k v = l ++ [(k, v)] := by
  simp [mapSet, mapHas_false_of_not_mem l k h]

theorem mapLookup_map_modify_ne {α : Type} (l : List (String × α))
    (lid pid : String) (f : α → α) (h : pid ≠ lid) :
    mapLookup (l.map fun kv => if kv.1 = lid then (kv.1, f kv.2) else kv) pid
      = mapLookup l pid := by
  induction l with
  | nil => rfl
  | cons kv rest ih =>
      by_cases hl : kv.1 = lid
      · have hlp : ¬ lid = pid := fun he => h he.symm
        simp [mapLookup, hl, hlp, ih]
      · by_cases hk : kv.1 = pid
        · simp [mapLookup, hl, hk, h, ih]
        · simp [mapLookup, hl, hk, ih]

theorem mapLookup_map_modify_self {α : Type} (l : List (String × α))
    (lid : String) (f : α → α) :
    mapLookup (l.map fun kv => if kv.1 = lid then (kv.1, f kv.2) else kv) lid
      = (mapLookup l lid).map f := by
  induction l with
  | nil => rfl
  | cons kv rest ih =>
      by_cases hl : kv.1 = lid
      · simp [mapLookup, hl]
      · simp [mapLookup, hl, ih]

/-- getPlayerState fills in the queried id. -/
theorem getPlayerState_some_id (nm : NetworkManager) (pid : String) (now : Nat)
    (s : PlayerState) (h : getPlayerState nm pid now = some s) : s.id = pid := by
  unfold getPlayerState at h
  cases hm : mapLookup nm.players pid with
  | none => rw [hm] at h; exact absurd h (by simp)
  | some p =>
      rw [hm] at h
      cases h
      rfl

/-- getPlayerState answers for exactly the ids in the players map. -/
theorem getPlayerState_isSome_of_mem (nm : NetworkManager) (pid : String)
    (now : Nat) (h : pid ∈ nm.players.map Prod.fst) :
    (getPlayerState nm pid now).isSome = true := by
  unfold getPlayerState
  cases hm : mapLookup nm.players pid with
  | none =>
      have := mapLookup_isSome_of_mem nm.players pid h
      rw [hm] at this
      exact absurd this (by simp)
  | some p => simp

/- The claims. -/

/-- Claim C6: when the insertCoin call inside init fails, init does not
throw (it is a total function returning the degraded state), isConnected
is false, getAllPlayerStates is empty, and setLocalState is a raise-free
no-op since no local participant exists. -/
theorem connect_failure_degradation :
    isConnected (init freshNM false "svc") = false
    ∧ (∀ now, getAllPlayerStates (init freshNM false "svc") now = [])
    ∧ (∀ st now, setLocalState (init freshNM false "svc") st now
        = init freshNM false "svc") :=
  ⟨rfl, fun _ => rfl, fun _ _ => rfl⟩

/-- Claim C7: after the quit event for participant P, getPlayerState P is
none and P appears in no element of getAllPlayerStates; an id never
present also answers none. -/
theorem leave_cleanup (nm : NetworkManager) (P Q : String) (now : Nat)
    (hq : Q ∉ nm.players.map Prod.fst) :
    getPlayerState (handleQuit nm P) P now = none
    ∧ (∀ s ∈ getAllPlayerStates (handleQuit nm P) now, s.id ≠ P)
    ∧ getPlayerState nm Q now = none := by
  refine ⟨?_, ?_, ?_⟩
  · unfold getPlayerState
    have he : (handleQuit nm P).players = mapErase nm.players P := rfl
    rw [he, mapLookup_erase_self]
  · intro s hs
    unfold getAllPlayerStates at hs
    rcases List.mem_filterMap.mp hs with ⟨pid, hpid, hsome⟩
    have hid := getPlayerState_some_id _ _ _ _ hsome
    have hpid2 : pid ∈ (mapErase nm.players P).map Prod.fst := hpid
    have hne := mem_keys_mapErase_ne nm.players P pid hpid2
    rw [hid]
    exact hne
  · unfold getPlayerState
    rw [mapLookup_eq_none_of_not_mem nm.players Q hq]

theorem leave_cleanup_w :
    "zed" ∉ posOnlyNM.players.map Prod.fst
    ∧ (getPlayerState (handleQuit posOnlyNM "bob") "bob" 0 = none
       ∧ (∀ s ∈ getAllPlayerStates (handleQuit posOnlyNM "bob") 0, s.id ≠ "bob")
       ∧ getPlayerState posOnlyNM "zed" 0 = none) :=
  ⟨by decide, leave_cleanup posOnlyNM "bob" "zed" 0 (by decide)⟩

/-- Claim C10: a remote participant joining with a reported zero x (or
zero y) coordinate is spawned at the default point right of the fire
(x = 1280 / 2 + 80 = 720) or at ground level (y = 720 - 180 = 540),
because JavaScript || treats the falsy coordinate 0 as absent; a nonzero
coordinate is used as reported. -/
theorem zero_coordinate_spawn (rp : List (String × Character)) (pid : String)
    (st : PlayerState) (h : mapHas rp pid = false) :
    ∃ c, spawnRemotePlayer rp pid st = rp ++ [(pid, c)]
      ∧ (st.x = 0 → c.x = 720)
      ∧ (st.y = 0 → c.y = 540)
      ∧ (st.x ≠ 0 → c.x = st.x)
      ∧ (st.y ≠ 0 → c.y = st.y) := by
  refine ⟨mkCharacter (if st.x = 0 then 1280 / 2 + 80 else st.x)
      (if st.y = 0 then 720 - 180 else st.y) pid st.username, ?_, ?_, ?_, ?_, ?_⟩
  · simp [spawnRemotePlayer, h]
  · intro hx
    show (if st.x = 0 then (1280 : Int) / 2 + 80 else st.x) = 720
    rw [if_pos hx]
    decide
  · intro hy
    show (if st.y = 0 then (720 : Int) - 180 else st.y) = 540
    rw [if_pos hy]
    decide
  · intro hx
    show (if st.x = 0 then (1280 : Int) / 2 + 80 else st.x) = st.x
    rw [if_neg hx]
  · intro hy
    show (if st.y = 0 then (720 : Int) - 180 else st.y) = st.y
    rw [if_neg hy]

theorem zero_coordinate_spawn_w :
    mapHas ([] : List (String × Character)) "z" = false
    ∧ ∃ c, spawnRemotePlayer [] "z" repIdle = [] ++ [("z", c)]
      ∧ (repIdle.x = 0 → c.x = 720)
      ∧ (repIdle.y = 0 → c.y = 540)
      ∧ (repIdle.x ≠ 0 → c.x = repIdle.x)
      ∧ (repIdle.y ≠ 0 → c.y = repIdle.y) :=
  ⟨rfl, zero_coordinate_spawn [] "z" repIdle rfl⟩

/-- Claim C1: single-writer invariant.  No exposed operation of the
NetworkManager changes the stored fields of a participant other than the
local one: every exposed operation preserves the map entry of each id the
local identity does not match, and the two query operations getPlayerState
and getAllPlayerStates leave the whole state untouched.  Only setLocal can
reach a player entry at all, and it writes through the localId handle. -/
theorem single_writer_invariant (nm : NetworkManager) (op : ExposedOp)
    (pid q : String) (t : Nat) (h : nm.localId ≠ some pid) :
    mapLookup (runOp nm op).1.players pid = mapLookup nm.players pid
    ∧ (runOp nm (ExposedOp.getPlayer q t)).1 = nm
    ∧ (runOp nm (ExposedOp.getAll t)).1 = nm := by
  refine ⟨?_, rfl, rfl⟩
  cases op
  case setLocal st now =>
    show mapLookup (setLocalState nm st now).players pid = _
    rcases hl : nm.localId with _ | lid
    · simp [setLocalState, hl]
    · simp only [setLocalState, hl]
      exact mapLookup_map_modify_ne nm.players lid pid _
        (fun he => h (hl.trans (congrArg some he.symm)))
  case broadcast a =>
    show mapLookup (broadcastAction nm a).players pid = _
    unfold broadcastAction
    split <;> rfl
  all_goals rfl

theorem single_writer_invariant_w :
    localNM.localId ≠ some "bob"
    ∧ (mapLookup (runOp localNM (ExposedOp.setLocal fullPatch 99)).1.players "bob"
        = mapLookup localNM.players "bob"
      ∧ (runOp localNM (ExposedOp.getPlayer "me" 0)).1 = localNM
      ∧ (runOp localNM (ExposedOp.getAll 0)).1 = localNM) :=
  ⟨by decide,
   single_writer_invariant localNM (ExposedOp.setLocal fullPatch 99) "bob" "me" 0
     (by decide)⟩

/-- Claim C9, counterexample: a patch carrying x, y and an action at once
(exactly what the self-join sync in setupMultiplayer sends) does not leave
the published position unchanged, against the claim that a call whose
partial contains an action always leaves it unchanged. -/
theorem publish_frame_cex :
    fullPatch.action.isSome = true
    ∧ (mapLookup (setLocalState localNM fullPatch 99).players "me").map PlayroomPlayer.pos
      ≠ (mapLookup localNM.players "me").map PlayroomPlayer.pos := by
  decide

/-- Claim C9 as amended: a call writes action plus a fresh actionTime
exactly when the patch carries an action, and writes pos exactly when the
patch carries both x and y; each group is otherwise left unchanged.  The
pos-unchanged part of the original claim therefore holds only when the
patch does not also carry both coordinates. -/
theorem publish_frame_amended (nm : NetworkManager) (lid : String)
    (p : PlayroomPlayer) (st : StatePatch) (now : Nat)
    (hl : nm.localId = some lid) (hp : mapLookup nm.players lid = some p) :
    ∃ q2, mapLookup (setLocalState nm st now).players lid = some q2
      ∧ (st.action.isSome = true → q2.action = st.action ∧ q2.actionTime = some now)
      ∧ (st.action = none → q2.action = p.action ∧ q2.actionTime = p.actionTime)
      ∧ ((st.x.isSome && st.y.isSome) = true →
          q2.pos = some (st.x.getD 0, st.y.getD 0))
      ∧ ((st.x.isSome && st.y.isSome) = false → q2.pos = p.pos) := by
  refine ⟨setLocalStateUpd st now p, ?_, ?_, ?_, ?_, ?_⟩
  · simp only [setLocalState, hl]
    rw [mapLookup_map_modify_self, hp]
    rfl
  · intro ha
    unfold setLocalStateUpd
    simp [ha]
  · intro ha
    unfold setLocalStateUpd
    simp only [ha, Option.isSome_none, Bool.false_eq_true, if_false]
    split
    · exact ⟨rfl, rfl⟩
    · exact ⟨rfl, rfl⟩
  · intro hxy
    unfold setLocalStateUpd
    simp only [hxy, if_true]
    split
    · rfl
    · rfl
  · intro hxy
    unfold setLocalStateUpd
    simp only [hxy, Bool.false_eq_true, if_false]
    split
    · rfl
    · rfl

theorem publish_frame_amended_w :
    localNM.localId = some "me"
    ∧ mapLookup localNM.players "me" = some mePlayer
    ∧ (∃ q2, mapLookup (setLocalState localNM fullPatch 99).players "me" = some q2
      ∧ (fullPatch.action.isSome = true →
          q2.action = fullPatch.action ∧ q2.actionTime = some 99)
      ∧ (fullPatch.action = none →
          q2.action = mePlayer.action ∧ q2.actionTime = mePlayer.actionTime)
      ∧ ((fullPatch.x.isSome && fullPatch.y.isSome) = true →
          q2.pos = some (fullPatch.x.getD 0, fullPatch.y.getD 0))
      ∧ ((fullPatch.x.isSome && fullPatch.y.isSome) = false →
          q2.pos = mePlayer.pos)) :=
  ⟨rfl, by decide,
   publish_frame_amended localNM "me" mePlayer fullPatch 99 rfl (by decide)⟩

/-- Claim C5, counterexample: for a participant that has only ever
published a position, two getPlayerState calls at different clock readings
are not bit-identical, because the unpublished actionTime defaults to the
current Date.now() on every call. -/
theorem default_fill_cex :
    bobPlayer.action = none
    ∧ bobPlayer.actionTime = none
    ∧ bobPlayer.pos.isSome = true
    ∧ getPlayerState posOnlyNM "bob" 0 ≠ getPlayerState posOnlyNM "bob" 1 := by
  decide

/-- Claim C5 as amended: getPlayerState on a position-only participant
returns activity idle and actionTime equal to the clock reading of the
call (so never null); two calls agree on every field except actionTime,
hence calls at the same clock reading are bit-identical; and the query
mutates nothing. -/
theorem default_fill_amended (nm : NetworkManager) (pid : String)
    (p : PlayroomPlayer) (t1 t2 : Nat)
    (hp : mapLookup nm.players pid = some p)
    (ha : p.action = none) (ht : p.actionTime = none) :
    ∃ s1 s2, getPlayerState nm pid t1 = some s1
      ∧ getPlayerState nm pid t2 = some s2
      ∧ s1.action = PlayerAction.idle
      ∧ s1.actionTime = t1
      ∧ s2 = { s1 with actionTime := t2 }
      ∧ (runOp nm (ExposedOp.getPlayer pid t1)).1 = nm := by
  unfold getPlayerState
  rw [hp]
  refine ⟨_, _, rfl, rfl, ?_, ?_, ?_, rfl⟩
  · simp [ha]
  · simp [ht]
  · simp [ht]

theorem default_fill_amended_w :
    mapLookup posOnlyNM.players "bob" = some bobPlayer
    ∧ bobPlayer.action = none
    ∧ bobPlayer.actionTime = none
    ∧ (∃ s1 s2, getPlayerState posOnlyNM "bob" 0 = some s1
      ∧ getPlayerState posOnlyNM "bob" 1 = some s2
      ∧ s1.action = PlayerAction.idle
      ∧ s1.actionTime = 0
      ∧ s2 = { s1 with actionTime := 1 }
      ∧ (runOp posOnlyNM (ExposedOp.getPlayer "bob" 0)).1 = posOnlyNM) :=
  ⟨by decide, rfl, rfl,
   default_fill_amended posOnlyNM "bob" bobPlayer 0 1 (by decide) rfl rfl⟩

/- Lemmas about the reconciliation tick. -/

/-- An actor with no tween keeps its position and stays tween-free under
any inter-tick environment. -/
theorem applyEnv_no_tween (c : Character) (e : TickEnv)
    (h1 : c.moveTween = none) :
    (applyEnv c e).x = c.x ∧ (applyEnv c e).y = c.y
    ∧ (applyEnv c e).moveTween = none := by
  have hmc : moveComplete c = c := by
    unfold moveComplete
    rw [h1]
  unfold applyEnv
  rw [hmc, ite_self]
  unfold waveComplete
  split
  · exact ⟨rfl, rfl, h1⟩
  · exact ⟨rfl, rfl, h1⟩

/-- One reconciliation tick on an idle-positioned actor: no tween, its
reported position within the threshold.  Position and tween state are
unchanged and no walk is initiated, whatever the environment and the
reported activity. -/
theorem tick_fix (c : Character) (e : TickEnv) (s : PlayerState)
    (h1 : c.moveTween = none) (h3 : distSq c.x c.y s.x s.y ≤ 25) :
    (updateRemoteTick (applyEnv c e) s).1.x = c.x
    ∧ (updateRemoteTick (applyEnv c e) s).1.y = c.y
    ∧ (updateRemoteTick (applyEnv c e) s).1.moveTween = none
    ∧ (updateRemoteTick (applyEnv c e) s).2.2 = false := by
  obtain ⟨hx, hy, ht⟩ := applyEnv_no_tween c e h1
  have hmov : isMovingChar (applyEnv c e) = false := by
    simp [isMovingChar, ht]
  have hdist : ¬ distSq (applyEnv c e).x (applyEnv c e).y s.x s.y > 25 := by
    rw [hx, hy]
    omega
  unfold updateRemoteTick
  rw [hmov]
  simp only [Bool.false_eq_true, if_false, if_neg hdist]
  unfold actionCheck
  split
  · exact ⟨hx, hy, ht, rfl⟩
  · exact ⟨hx, hy, ht, rfl⟩

/-- Claim C4: anti-jitter idempotence.  A remote actor that is not
mid-transition and whose reported position is within the minimum
threshold of 5 of its rendered position stays exactly where it is over
arbitrarily many reconciliation ticks: position unchanged, tween state
idle (isMoving false), and zero movement transitions initiated. -/
theorem anti_jitter_idempotence (c : Character) (s : PlayerState)
    (envs : List TickEnv) (h1 : c.moveTween = none)
    (h3 : distSq c.x c.y s.x s.y ≤ 25) :
    (runTicks c (envs.map (fun e => (e, s)))).1.x = c.x
    ∧ (runTicks c (envs.map (fun e => (e, s)))).1.y = c.y
    ∧ (runTicks c (envs.map (fun e => (e, s)))).1.moveTween = none
    ∧ isMovingChar (runTicks c (envs.map (fun e => (e, s)))).1 = false
    ∧ (runTicks c (envs.map (fun e => (e, s)))).2.2 = 0 := by
  induction envs generalizing c with
  | nil => exact ⟨rfl, rfl, h1, by simp [runTicks, isMovingChar, h1], rfl⟩
  | cons e rest ih =>
      obtain ⟨tx, ty, tt, tw⟩ := tick_fix c e s h1 h3
      have h3b : distSq (updateRemoteTick (applyEnv c e) s).1.x
          (updateRemoteTick (applyEnv c e) s).1.y s.x s.y ≤ 25 := by
        rw [tx, ty]
        exact h3
      obtain ⟨ihx, ihy, iht, ihm, ihw⟩ :=
        ih (updateRemoteTick (applyEnv c e) s).1 tt h3b
      refine ⟨?_, ?_, ?_, ?_, ?_⟩
      · exact ihx.trans tx
      · exact ihy.trans ty
      · exact iht
      · exact ihm
      · show (if (updateRemoteTick (applyEnv c e) s).2.2 then 1 else 0)
            + (runTicks (updateRemoteTick (applyEnv c e) s).1
                (rest.map (fun e => (e, s)))).2.2 = 0
        rw [tw, ihw]
        simp

theorem anti_jitter_idempotence_w :
    originChar.moveTween = none
    ∧ distSq originChar.x originChar.y repIdle.x repIdle.y ≤ 25
    ∧ ((runTicks originChar
          ([quietEnv, quietEnv, quietEnv].map (fun e => (e, repIdle)))).1.x
        = originChar.x
      ∧ (runTicks originChar
          ([quietEnv, quietEnv, quietEnv].map (fun e => (e, repIdle)))).1.y
        = originChar.y
      ∧ (runTicks originChar
          ([quietEnv, quietEnv, quietEnv].map (fun e => (e, repIdle)))).1.moveTween
        = none
      ∧ isMovingChar (runTicks originChar
          ([quietEnv, quietEnv, quietEnv].map (fun e => (e, repIdle)))).1 = false
      ∧ (runTicks originChar
          ([quietEnv, quietEnv, quietEnv].map (fun e => (e, repIdle)))).2.2 = 0) :=
  ⟨rfl, by decide,
   anti_jitter_idempotence originChar repIdle [quietEnv, quietEnv, quietEnv]
     rfl (by decide)⟩

/-- Claim C8, counterexample: an actor mid-movement-transition (isMoving
true, rendering walking) receiving a waving report has playWave triggered
by the very same tick, against the claim that the loop does not trigger a
one-shot action while the actor is moving: the already-moving guard wraps
only the movement block, not the action block. -/
theorem moving_suppression_cex :
    isMovingChar movingChar = true
    ∧ getActionChar movingChar = PlayerAction.walking
    ∧ (updateRemoteTick movingChar repWaveFar).2.1 = true := by
  decide

/-- Claim C8 as amended: while the actor is mid-movement-transition the
tick initiates no movement (position and tween untouched, no walk), but
action handling is independent of movement: a waving report triggers
playWave in the same tick whenever the rendered action is not waving. -/
theorem action_independent_of_movement (c : Character) (s : PlayerState)
    (hm : isMovingChar c = true) :
    (updateRemoteTick c s).2.2 = false
    ∧ (updateRemoteTick c s).1.x = c.x
    ∧ (updateRemoteTick c s).1.y = c.y
    ∧ (updateRemoteTick c s).1.moveTween = c.moveTween
    ∧ (s.action = PlayerAction.waving → c.currentAction ≠ PlayerAction.waving →
        (updateRemoteTick c s).2.1 = true) := by
  unfold updateRemoteTick
  rw [hm]
  simp only [if_true]
  unfold actionCheck
  split
  · exact ⟨rfl, rfl, rfl, rfl, fun _ _ => rfl⟩
  · next hcond =>
      refine ⟨rfl, rfl, rfl, rfl, fun hs hc => absurd ?_ hcond⟩
      simp [getActionChar, hs, hc]

theorem action_independent_of_movement_w :
    isMovingChar movingChar = true
    ∧ ((updateRemoteTick movingChar repWaveFar).2.2 = false
      ∧ (updateRemoteTick movingChar repWaveFar).1.x = movingChar.x
      ∧ (updateRemoteTick movingChar repWaveFar).1.y = movingChar.y
      ∧ (updateRemoteTick movingChar repWaveFar).1.moveTween = movingChar.moveTween
      ∧ (repWaveFar.action = PlayerAction.waving →
          movingChar.currentAction ≠ PlayerAction.waving →
          (updateRemoteTick movingChar repWaveFar).2.1 = true)) :=
  ⟨rfl, action_independent_of_movement movingChar repWaveFar rfl⟩

/-- Claim C3, counterexample: over the report sequence idle, waving,
waving, idle, waving delivered on consecutive ticks between which the wave
animation never completes (the per-frame case: ticks are milliseconds
apart, the wave animation lasts about two seconds), playWave triggers
once, not twice: the tick-4 idle report does not reset the actor, whose
rendered action is still waving at tick 5. -/
theorem edge_trigger_cex :
    (runTicks originChar
      (waveSeq quietEnv quietEnv quietEnv quietEnv quietEnv)).2.1 = 1
    ∧ (runTicks originChar
      (waveSeq quietEnv quietEnv quietEnv quietEnv quietEnv)).2.1 ≠ 2 := by
  decide

/-- Claim C3 as amended: over idle, waving, waving, idle, waving the loop
triggers playWave exactly twice provided the wave animation started on
the first edge has not completed when the repeated waving report arrives
(tick 3) but has completed by the final waving report (before tick 4 or
tick 5); the trigger is keyed on the rendered action, not on the report
stream, so with no completion in between it triggers once (see the
counterexample), and with an early completion it would re-trigger on the
repeated report. -/
theorem edge_trigger_amended (e1 e2 e4 e5 : Bool) (h : (e4 || e5) = true) :
    (runTicks originChar
      (waveSeq ⟨e1, false⟩ ⟨e2, false⟩ ⟨false, false⟩
        ⟨e4, false⟩ ⟨e5, false⟩)).2.1 = 2 := by
  cases e1 <;> cases e2 <;> cases e4 <;> cases e5 <;>
    first
      | rfl
      | exact absurd h (by decide)

theorem edge_trigger_amended_w :
    ((false : Bool) || true) = true
    ∧ (runTicks originChar
        (waveSeq ⟨false, false⟩ ⟨false, false⟩ ⟨false, false⟩
          ⟨false, false⟩ ⟨true, false⟩)).2.1 = 2 :=
  ⟨rfl, edge_trigger_amended false false false true rfl⟩

/- Lemmas for the replay invariant. -/

/-- While no callback is registered, a join only inserts the handle. -/
theorem handlePlayerJoin_not_registered (nm : NetworkManager)
    (p : PlayroomPlayer) (now : Nat) (hreg : nm.registered = false) :
    handlePlayerJoin nm p now = { nm with players := mapSet nm.players p.id p } := by
  unfold handlePlayerJoin
  simp [hreg]

/-- A sequence of distinct, fresh joins delivered while no callback is
registered appends their ids to the key list in order and leaves the
registration flag and the invocation trace untouched. -/
theorem foldJoin_spec (joins : List PlayroomPlayer) (nm : NetworkManager)
    (now : Nat) (hreg : nm.registered = false)
    (hnd : (joins.map PlayroomPlayer.id).Nodup)
    (hdisj : ∀ p ∈ joins, p.id ∉ nm.players.map Prod.fst) :
    (joins.foldl (fun m p => handlePlayerJoin m p now) nm).players.map Prod.fst
      = nm.players.map Prod.fst ++ joins.map PlayroomPlayer.id
    ∧ (joins.foldl (fun m p => handlePlayerJoin m p now) nm).registered = false
    ∧ (joins.foldl (fun m p => handlePlayerJoin m p now) nm).invocations
      = nm.invocations := by
  induction joins generalizing nm with
  | nil => exact ⟨by simp, hreg, rfl⟩
  | cons p rest ih =>
      have hpid : p.id ∉ nm.players.map Prod.fst := hdisj p (by simp)
      have hset : mapSet nm.players p.id p = nm.players ++ [(p.id, p)] :=
        mapSet_append_of_not_mem nm.players p.id p hpid
      have hstep : handlePlayerJoin nm p now
          = { nm with players := mapSet nm.players p.id p } :=
        handlePlayerJoin_not_registered nm p now hreg
      have hnd2 : (rest.map PlayroomPlayer.id).Nodup := by
        simp only [List.map_cons, List.nodup_cons] at hnd
        exact hnd.2
      have hhead : p.id ∉ rest.map PlayroomPlayer.id := by
        simp only [List.map_cons, List.nodup_cons] at hnd
        exact hnd.1
      have hdisj2 : ∀ r ∈ rest,
          r.id ∉ (handlePlayerJoin nm p now).players.map Prod.fst := by
        intro r hr
        rw [hstep]
        show r.id ∉ (mapSet nm.players p.id p).map Prod.fst
        rw [hset]
        simp only [List.map_append, List.mem_append, List.map_cons,
          List.map_nil, List.mem_singleton]
        rintro (hmem | heq)
        · exact hdisj r (List.mem_cons_of_mem p hr) hmem
        · exact hhead (heq ▸ List.mem_map_of_mem PlayroomPlayer.id hr)
      have hreg2 : (handlePlayerJoin nm p now).registered = false := by
        rw [hstep]
        exact hreg
      obtain ⟨k2, r2, i2⟩ := ih (handlePlayerJoin nm p now) hreg2 hnd2 hdisj2
      refine ⟨?_, r2, ?_⟩
      · show (rest.foldl (fun m p => handlePlayerJoin m p now)
            (handlePlayerJoin nm p now)).players.map Prod.fst = _
        rw [k2, hstep]
        show (mapSet nm.players p.id p).map Prod.fst ++ _ = _
        rw [hset]
        simp
      · show (rest.foldl (fun m p => handlePlayerJoin m p now)
            (handlePlayerJoin nm p now)).invocations = _
        rw [i2, hstep]

/-- The replay loop of onPlayerJoin visits exactly the key list when every
key answers a state. -/
theorem filterMap_keys {β : Type} (ks : List String) (g : String → Option β)
    (h : ∀ k ∈ ks, (g k).isSome = true) :
    (ks.filterMap (fun k => (g k).map (fun s => (k, s)))).map Prod.fst = ks := by
  induction ks with
  | nil => rfl
  | cons k rest ih =>
      obtain ⟨b, hb⟩ := Option.isSome_iff_exists.mp (h k (by simp))
      have ih2 := ih (fun a ha => h a (List.mem_cons_of_mem k ha))
      simp [List.filterMap_cons, hb, ih2]

/-- Claim C2: replay invariant.  After N joins with distinct ids are
delivered to a connected manager, a late onPlayerJoin registration invokes
the new handler exactly N times synchronously, once per currently-present
participant and in order; when the local id is among the joined ids (the
synthetic self-join of the first connect) exactly one of those invocations
carries it; and any future join appends its invocation strictly after the
replayed ones. -/
theorem replay_invariant (joins : List PlayroomPlayer) (lid : String)
    (nowJ nowR now2 : Nat) (q : PlayroomPlayer)
    (hnd : (joins.map PlayroomPlayer.id).Nodup) :
    (registerJoinCallback (joinPhase joins lid nowJ) nowR).invocations.length
      = joins.length
    ∧ (registerJoinCallback (joinPhase joins lid nowJ) nowR).invocations.map Prod.fst
      = joins.map PlayroomPlayer.id
    ∧ (lid ∈ joins.map PlayroomPlayer.id →
        ((registerJoinCallback (joinPhase joins lid nowJ) nowR).invocations.map
          Prod.fst).count lid = 1)
    ∧ (∃ st, (handlePlayerJoin
          (registerJoinCallback (joinPhase joins lid nowJ) nowR) q now2).invocations
        = (registerJoinCallback (joinPhase joins lid nowJ) nowR).invocations
          ++ [(q.id, st)]) := by
  obtain ⟨hkeys, hreg, hinv⟩ := foldJoin_spec joins (connectedNM lid) nowJ rfl hnd
    (by intro p hp; simp [connectedNM, init, freshNM])
  have hkeys2 : (joinPhase joins lid nowJ).players.map Prod.fst
      = joins.map PlayroomPlayer.id := by
    have : (connectedNM lid).players.map Prod.fst = [] := rfl
    rw [joinPhase, hkeys, this, List.nil_append]
  have hinv2 : (joinPhase joins lid nowJ).invocations = [] := by
    rw [joinPhase, hinv]
    rfl
  have hisSome : ∀ pid ∈ (joinPhase joins lid nowJ).players.map Prod.fst,
      (getPlayerState (joinPhase joins lid nowJ) pid nowR).isSome = true :=
    fun pid hp => getPlayerState_isSome_of_mem (joinPhase joins lid nowJ) pid nowR hp
  have htrace : (registerJoinCallback (joinPhase joins lid nowJ) nowR).invocations.map
      Prod.fst = joins.map PlayroomPlayer.id := by
    show ((joinPhase joins lid nowJ).invocations
      ++ ((joinPhase joins lid nowJ).players.map Prod.fst).filterMap
          (fun pid => (getPlayerState (joinPhase joins lid nowJ) pid nowR).map
            (fun s => (pid, s)))).map Prod.fst = _
    rw [hinv2, List.nil_append,
      filterMap_keys ((joinPhase joins lid nowJ).players.map Prod.fst)
        (fun pid => getPlayerState (joinPhase joins lid nowJ) pid nowR) hisSome,
      hkeys2]
  refine ⟨?_, htrace, ?_, ?_⟩
  · have := congrArg List.length htrace
    simpa using this
  · intro hmem
    rw [htrace]
    exact List.count_eq_one_of_mem hnd hmem
  · exact ⟨_, rfl⟩

theorem replay_invariant_w :
    (([joinMe, joinB].map PlayroomPlayer.id).Nodup
    ∧ ((registerJoinCallback (joinPhase [joinMe, joinB] "me" 3) 4).invocations.length
        = [joinMe, joinB].length
      ∧ (registerJoinCallback (joinPhase [joinMe, joinB] "me" 3) 4).invocations.map
          Prod.fst = [joinMe, joinB].map PlayroomPlayer.id
      ∧ ("me" ∈ [joinMe, joinB].map PlayroomPlayer.id →
          ((registerJoinCallback (joinPhase [joinMe, joinB] "me" 3) 4).invocations.map
            Prod.fst).count "me" = 1)
      ∧ (∃ st, (handlePlayerJoin
            (registerJoinCallback (joinPhase [joinMe, joinB] "me" 3) 4) joinC 9).invocations
          = (registerJoinCallback (joinPhase [joinMe, joinB] "me" 3) 4).invocations
            ++ [(joinC.id, st)]))) :=
  ⟨by decide, replay_invariant [joinMe, joinB] "me" 3 4 9 joinC (by decide)⟩

end CozyQuest
